import Mathlib

/-!
Verification of `buildbucket.py` (depot_tools): a command-line tool that
issues a single authenticated HTTP request against the buildbucket service.
The Python program is shallowly embedded below: JSON values are an inductive
type, `json.dumps`/`json.loads` are modelled by an executable serializer and
parser, and `main` is a pure function from parsed arguments and an ambient
environment (file system, stdin, HTTP transport) to a trace of observable
effects (stdout, stderr, the single HTTP request, file writes, exit status).
-/

namespace Buildbucket

/-- Python values that can arise from `json.load` / be passed to `json.dumps`
in this program.  Object keys are themselves values because a Python dict may
acquire non-string keys through `dict.update` on a list of pairs; the JSON
parser only ever produces `str` keys. -/
inductive Json where
  | null
  | bool (b : Bool)
  | num (n : Int)
  | str (s : String)
  | arr (elems : List Json)
  | obj (kvs : List (Json × Json))

/-- Hex digit used by the `\u00XX` escapes of the JSON encoder (lowercase,
as produced by Python's `'\\u%04x'` formatting). -/
def hexDigit (n : Nat) : Char :=
  if n < 10 then Char.ofNat (48 + n) else Char.ofNat (87 + n)

/-- Escape one character the way Python 2's `json` encoder does inside a
string literal.  (Python with `ensure_ascii=True` additionally escapes
characters above 0x7e; we emit them raw, which parses back to the same
value, so no claim is affected.) -/
def escChar (c : Char) : List Char :=
  if c = '"' then ['\\', '"']
  else if c = '\\' then ['\\', '\\']
  else if c = '\n' then ['\\', 'n']
  else if c = '\t' then ['\\', 't']
  else if c = '\r' then ['\\', 'r']
  else if c = '\x08' then ['\\', 'b']
  else if c = '\x0c' then ['\\', 'f']
  else if c.toNat < 32 then
    ['\\', 'u', '0', '0', hexDigit (c.toNat / 16), hexDigit (c.toNat % 16)]
  else [c]

/-- Escape a whole string body. -/
def escChars : List Char → List Char
  | [] => []
  | c :: cs => escChar c ++ escChars cs

/-- Serialization of a dict key, per Python's `json` encoder: string keys are
escaped and quoted; `int`, `bool` and `None` keys are coerced to their JSON
spelling wrapped in quotes.  Container keys would raise `TypeError` in
Python; they are unreachable in this program (dict keys are always hashable)
and rendered as an empty quoted string here. -/
def keyChars (k : Json) : List Char :=
  match k with
  | .str s => '"' :: (escChars s.data ++ ['"'])
  | .num n => '"' :: ((toString n).data ++ ['"'])
  | .bool true => '"' :: ('t' :: 'r' :: 'u' :: 'e' :: ['"'])
  | .bool false => '"' :: ('f' :: 'a' :: 'l' :: 's' :: 'e' :: ['"'])
  | .null => '"' :: ('n' :: 'u' :: 'l' :: 'l' :: ['"'])
  | _ => ['"', '"']

mutual

/-- `json.dumps` with Python's default separators `', '` and `': '`,
producing the character list of the output.  (Python 2 emits the members of
a dict in hash order; the claims only compare parsed values, for which the
construction order used here is equivalent.) -/
def dumpsL : Json → List Char
  | .null => "null".data
  | .bool b => if b then "true".data else "false".data
  | .num n => (toString n).data
  | .str s => '"' :: (escChars s.data ++ ['"'])
  | .arr [] => ['[', ']']
  | .arr (x :: xs) => '[' :: (dumpsL x ++ dumpsArrRest xs ++ [']'])
  | .obj [] => ['\x7b', '\x7d']
  | .obj (m :: ms) => '\x7b' :: (dumpsKV m ++ dumpsObjRest ms ++ ['\x7d'])

/-- Remaining array elements, each preceded by `", "`. -/
def dumpsArrRest : List Json → List Char
  | [] => []
  | x :: xs => ',' :: ' ' :: (dumpsL x ++ dumpsArrRest xs)

/-- One `"key": value` member. -/
def dumpsKV : Json × Json → List Char
  | (k, v) => keyChars k ++ (':' :: ' ' :: dumpsL v)

/-- Remaining object members, each preceded by `", "`. -/
def dumpsObjRest : List (Json × Json) → List Char
  | [] => []
  | m :: ms => ',' :: ' ' :: (dumpsKV m ++ dumpsObjRest ms)

end

/-- `json.dumps` as a string. -/
def Json.dumps (j : Json) : String := String.mk (dumpsL j)

/-! ## The JSON parser (`json.loads` / `json.load`)

Modelled on Python 2's `json` decoder in strict mode.  Deliberate,
claim-irrelevant simplifications (each noted where it occurs): number
literals are integers (a fractional or exponent part makes the document
unparsable here, where Python would produce a float), and a `\uXXXX` escape
must denote a Unicode scalar value (Python 2 would accept lone surrogates,
which Lean's `Char` cannot represent). -/

/-- JSON whitespace. -/
def isWsChar (c : Char) : Bool := c = ' ' || c = '\t' || c = '\n' || c = '\r'

/-- Skip leading whitespace. -/
def skipWs : List Char → List Char
  | [] => []
  | c :: cs => if isWsChar c then skipWs cs else c :: cs

/-- Value of a hex digit. -/
def hexVal (c : Char) : Option Nat :=
  if '0' ≤ c ∧ c ≤ '9' then some (c.toNat - 48)
  else if 'a' ≤ c ∧ c ≤ 'f' then some (c.toNat - 87)
  else if 'A' ≤ c ∧ c ≤ 'F' then some (c.toNat - 55)
  else none

/-- Decode one short escape character. -/
def escDecode (e : Char) : Option Char :=
  if e = '"' then some '"'
  else if e = '\\' then some '\\'
  else if e = '/' then some '/'
  else if e = 'b' then some '\x08'
  else if e = 'f' then some '\x0c'
  else if e = 'n' then some '\n'
  else if e = 'r' then some '\r'
  else if e = 't' then some '\t'
  else none

/-- Decode the body of a JSON string literal (the opening quote already
consumed), returning the decoded characters and the input after the closing
quote.  Unescaped control characters are rejected (strict mode). -/
def parseStringBody : List Char → Option (List Char × List Char)
  | [] => none
  | c :: cs =>
    if c = '"' then some ([], cs)
    else if c = '\\' then
      match cs with
      | [] => none
      | e :: cs1 =>
        if e = 'u' then
          match cs1 with
          | h1 :: h2 :: h3 :: h4 :: cs2 =>
            match hexVal h1, hexVal h2, hexVal h3, hexVal h4 with
            | some a, some b, some x, some d =>
              let n := 4096 * a + 256 * b + 16 * x + d
              if n.isValidChar then
                match parseStringBody cs2 with
                | some (l, rest) => some (Char.ofNat n :: l, rest)
                | none => none
              else none
            | _, _, _, _ => none
          | _ => none
        else
          match escDecode e with
          | some d =>
            match parseStringBody cs1 with
            | some (l, rest) => some (d :: l, rest)
            | none => none
          | none => none
    else if c.toNat < 32 then none
    else
      match parseStringBody cs with
      | some (l, rest) => some (c :: l, rest)
      | none => none

/-- Accumulate further decimal digits of a number literal. -/
def digitsVal (acc : Nat) : List Char → Nat × List Char
  | [] => (acc, [])
  | c :: cs =>
    if '0' ≤ c ∧ c ≤ '9' then digitsVal (10 * acc + (c.toNat - 48)) cs
    else (acc, c :: cs)

/-- Parse a natural number literal per the JSON grammar: either `0`, or a
nonzero digit followed by digits. -/
def parseNatLit : List Char → Option (Nat × List Char)
  | [] => none
  | '0' :: cs => some (0, cs)
  | c :: cs =>
    if '1' ≤ c ∧ c ≤ '9' then some (digitsVal (c.toNat - 48) cs) else none

/-- Parse a number literal (integers only; a following `.`, `e` or `E`
makes the document unparsable here — Python would build a float). -/
def parseNumber : List Char → Option (Json × List Char)
  | '-' :: cs =>
    match parseNatLit cs with
    | some (n, rest) =>
      match rest with
      | c :: _ => if c = '.' ∨ c = 'e' ∨ c = 'E' then none else some (.num (-(n : Int)), rest)
      | [] => some (.num (-(n : Int)), [])
    | none => none
  | cs =>
    match parseNatLit cs with
    | some (n, rest) =>
      match rest with
      | c :: _ => if c = '.' ∨ c = 'e' ∨ c = 'E' then none else some (.num (n : Int), rest)
      | [] => some (.num (n : Int), [])
    | none => none

/-- Python dict keys compare by value; the keys arising in this program are
strings, numbers, booleans or `None`.  (Python's numeric cross-type equality
such as `True == 1` is not modelled; no dict in this program mixes key
types.) -/
def keyEq : Json → Json → Bool
  | .str a, .str b => a = b
  | .num a, .num b => a = b
  | .bool a, .bool b => a = b
  | .null, .null => true
  | _, _ => false

/-- Bind a key in a Python dict: overwrite the value of an equal key, else
append the new entry. -/
def dictInsert (d : List (Json × Json)) (kv : Json × Json) : List (Json × Json) :=
  if d.any fun e => keyEq e.1 kv.1 then
    d.map fun e => if keyEq e.1 kv.1 then (e.1, kv.2) else e
  else d ++ [kv]

/-- Build a dict from a member list, later bindings of a repeated key
overwriting earlier ones (Python's `dict(pairs)`). -/
def dedupeMembers (ms : List (Json × Json)) : List (Json × Json) :=
  ms.foldl dictInsert []

mutual

/-- Parse one JSON value.  The fuel argument bounds the recursion depth
through containers; `Json.parseChars` supplies enough for its input. -/
def parseValue : Nat → List Char → Option (Json × List Char)
  | 0, _ => none
  | _ + 1, [] => none
  | _ + 1, '"' :: cs =>
    match parseStringBody cs with
    | some (l, rest) => some (.str (String.mk l), rest)
    | none => none
  | _ + 1, 't' :: 'r' :: 'u' :: 'e' :: cs => some (.bool true, cs)
  | _ + 1, 'f' :: 'a' :: 'l' :: 's' :: 'e' :: cs => some (.bool false, cs)
  | _ + 1, 'n' :: 'u' :: 'l' :: 'l' :: cs => some (.null, cs)
  | f + 1, '[' :: cs =>
    match skipWs cs with
    | ']' :: rest => some (.arr [], rest)
    | t =>
      match parseElems f t with
      | some (vs, rest) => some (.arr vs, rest)
      | none => none
  | f + 1, '\x7b' :: cs =>
    match skipWs cs with
    | '\x7d' :: rest => some (.obj [], rest)
    | t =>
      match parseMembers f t with
      | some (ms, rest) => some (.obj (dedupeMembers ms), rest)
      | none => none
  | _ + 1, c :: cs => parseNumber (c :: cs)

/-- Parse the comma-separated elements of a nonempty array, up to and
including the closing bracket. -/
def parseElems : Nat → List Char → Option (List Json × List Char)
  | 0, _ => none
  | f + 1, cs =>
    match parseValue f cs with
    | some (v, r1) =>
      match skipWs r1 with
      | ',' :: r2 =>
        match parseElems f (skipWs r2) with
        | some (vs, r3) => some (v :: vs, r3)
        | none => none
      | ']' :: r2 => some ([v], r2)
      | _ => none
    | none => none

/-- Parse the comma-separated members of a nonempty object, up to and
including the closing brace. -/
def parseMembers : Nat → List Char → Option (List (Json × Json) × List Char)
  | 0, _ => none
  | f + 1, cs =>
    match cs with
    | '"' :: cs1 =>
      match parseStringBody cs1 with
      | some (k, r1) =>
        match skipWs r1 with
        | ':' :: r2 =>
          match parseValue f (skipWs r2) with
          | some (v, r3) =>
            match skipWs r3 with
            | ',' :: r4 =>
              match parseMembers f (skipWs r4) with
              | some (ms, r5) => some ((Json.str (String.mk k), v) :: ms, r5)
              | none => none
            | '\x7d' :: r4 => some ([(Json.str (String.mk k), v)], r4)
            | _ => none
          | none => none
        | _ => none
      | none => none
    | _ => none

end

/-- `json.loads` on a character list: parse one document and require that
only whitespace follows (Python's "Extra data" check). -/
def Json.parseChars (l : List Char) : Option Json :=
  match parseValue (2 * l.length + 2) (skipWs l) with
  | some (v, rest) => if skipWs rest = [] then some v else none
  | none => none

/-- `json.loads` on a string. -/
def Json.parse (s : String) : Option Json := Json.parseChars s.data

/-! ## The program: arguments, environment, and `main` -/

/-- Python exception classes relevant to `main`'s control flow. -/
inductive PyErr where
  | typeError
  | valueError
  | keyError
  | ioError
deriving DecidableEq

/-- `BUILDBUCKET_URL`. -/
def BUILDBUCKET_URL : String := "https://cr-buildbucket.appspot.com"

/-- `BUILDBUCKET_API_URL`, the value of
`urlparse.urljoin(BUILDBUCKET_URL, '_ah/api/buildbucket/v1/builds')`. -/
def BUILDBUCKET_API_URL : String :=
  "https://cr-buildbucket.appspot.com/_ah/api/buildbucket/v1/builds"

/-- Parsed arguments of the `get` subcommand. -/
structure GetArgs where
  id : String
  response_json : Option String

/-- Parsed arguments of the `put` subcommand.  `changes` and `properties`
hold the given path (argparse stores `None` when an option is absent). -/
structure PutArgs where
  bucket : String
  builder_name : String
  changes : Option String
  properties : Option String
  response_json : Option String

/-- Parsed arguments of the `retry` subcommand. -/
structure RetryArgs where
  id : String
  response_json : Option String

/-- The chosen subcommand with its arguments (argparse guarantees exactly
one of the three). -/
inductive Command where
  | get (a : GetArgs)
  | put (a : PutArgs)
  | retry (a : RetryArgs)

/-- The full parsed command line. -/
structure Args where
  verbose : Bool
  command : Command

/-- An HTTP response as surfaced by the transport
(`force_exception_to_status_code = True` turns transport faults into status
codes, so the exchange is a total function). -/
structure HttpResponse where
  status : Nat
  content : String

/-- The single HTTP request the tool issues. -/
structure HttpRequest where
  url : String
  method : String
  body : Option String
  headers : List (String × String)

/-- The ambient world: the file system (`none` means `open` raises
`IOError`), standard input, and the authenticated HTTP transport obtained
from the external authenticator collaborator. -/
structure Env where
  files : String → Option String
  stdin : String
  http : HttpRequest → HttpResponse

/-- `changes.extend(x)` for a json-loaded `x`: Python's `list.extend`
accepts any iterable — a list contributes its elements, a dict its keys
(hash order in Python; construction order here), a string its characters;
numbers, booleans and `None` raise `TypeError`. -/
def listExtend (xs : List Json) : Json → Except PyErr (List Json)
  | .arr ys => .ok (xs ++ ys)
  | .obj kvs => .ok (xs ++ kvs.map fun kv => kv.1)
  | .str s => .ok (xs ++ s.data.map fun c => Json.str (String.mk [c]))
  | _ => .error .typeError

/-- Python hashability of a json-loaded value (lists and dicts are
unhashable). -/
def hashable : Json → Bool
  | .arr _ => false
  | .obj _ => false
  | _ => true

/-- Interpret one element of a sequence passed to `dict.update` as a
key/value pair (CPython's `PyDict_MergeFromSeq2`): the element must be an
iterable of length two — a two-element list, a two-character string, or a
two-key dict (iterated as its keys) — and the key must be hashable;
non-iterables raise `TypeError`, wrong lengths `ValueError`. -/
def pairOfElem : Json → Except PyErr (Json × Json)
  | .arr [k, v] => if hashable k then .ok (k, v) else .error .typeError
  | .arr _ => .error .valueError
  | .str s =>
    match s.data with
    | [a, b] => .ok (.str (String.mk [a]), .str (String.mk [b]))
    | _ => .error .valueError
  | .obj [(k1, _), (k2, _)] => .ok (k1, k2)
  | .obj _ => .error .valueError
  | _ => .error .typeError

/-- `d.update(x)` for a json-loaded `x`: a dict merges its bindings; a list
must consist of key/value pairs; a string is iterated as one-character
strings, which can only succeed when it is empty; numbers, booleans and
`None` raise `TypeError`. -/
def dictUpdate (d : List (Json × Json)) : Json → Except PyErr (List (Json × Json))
  | .obj kvs => .ok (kvs.foldl dictInsert d)
  | .arr elems => elems.foldlM (fun acc e => (pairOfElem e).map (dictInsert acc)) d
  | .str s => if s.data = [] then .ok d else .error .valueError
  | _ => .error .typeError

/-- `x[k]` for a json-loaded `x` and a string key `k`: dict lookup
(`KeyError` when absent); subscripting any non-dict with a string raises
`TypeError`. -/
def subscr (j : Json) (k : String) : Except PyErr Json :=
  match j with
  | .obj kvs =>
    match kvs.find? fun kv => keyEq kv.1 (.str k) with
    | some kv => .ok kv.2
    | none => .error .keyError
  | _ => .error .typeError

/-- A single-quote character, used by Python 2's `repr` of unicode
strings. -/
def squote : Char := Char.ofNat 39

mutual

/-- Python 2 `repr` of a json-loaded value, as produced inside `%s`
formatting of containers (unicode strings are rendered with a `u` prefix
and single quotes; quoting of special characters inside the string is not
modelled — no claim inspects it). -/
def pyRepr : Json → String
  | .null => "None"
  | .bool true => "True"
  | .bool false => "False"
  | .num n => toString n
  | .str s => String.mk ('u' :: squote :: (s.data ++ [squote]))
  | .arr [] => "[]"
  | .arr (x :: xs) => "[" ++ pyRepr x ++ pyReprArrRest xs ++ "]"
  | .obj [] => "\x7b\x7d"
  | .obj (m :: ms) => "\x7b" ++ pyReprKV m ++ pyReprObjRest ms ++ "\x7d"

/-- Remaining list elements of a `repr`. -/
def pyReprArrRest : List Json → String
  | [] => ""
  | x :: xs => ", " ++ pyRepr x ++ pyReprArrRest xs

/-- One `key: value` member of a dict `repr`. -/
def pyReprKV : Json × Json → String
  | (k, v) => pyRepr k ++ ": " ++ pyRepr v

/-- Remaining dict members of a `repr`. -/
def pyReprObjRest : List (Json × Json) → String
  | [] => ""
  | m :: ms => ", " ++ pyReprKV m ++ pyReprObjRest ms

end

/-- `'%s' % x`: `str()` of a json-loaded value — the string itself for a
unicode string, its `repr` otherwise. -/
def pyStr : Json → String
  | .str s => s
  | j => pyRepr j

/-- Lines 112-119: load the optional changes file.  Result: the changes
list, or the uncaught exception paired with the error-stream output written
before it propagated.  `IOError` from `open` is not in the `except` clause,
so it aborts without a message. -/
def processChanges (a : PutArgs) (env : Env) :
    Except (PyErr × List String) (List Json) :=
  match a.changes with
  | none => .ok []
  | some p =>
    if p = "" then .ok []
    else
      match env.files p with
      | none => .error (.ioError, [])
      | some content =>
        match Json.parse content with
        | none => .error (.valueError, [p ++ " contained invalid JSON list.\n"])
        | some j =>
          match listExtend [] j with
          | .ok cs => .ok cs
          | .error e => .error (e, [p ++ " contained invalid JSON list.\n"])

/-- Lines 121-133: load the optional properties source (`-` selects
standard input, checked before any `open`). -/
def processProps (a : PutArgs) (env : Env) :
    Except (PyErr × List String) (List (Json × Json)) :=
  match a.properties with
  | none => .ok []
  | some p =>
    if p = "" then .ok []
    else if p = "-" then
      match Json.parse env.stdin with
      | none => .error (.valueError, [p ++ " contained invalid JSON dict.\n"])
      | some j =>
        match dictUpdate [] j with
        | .ok d => .ok d
        | .error e => .error (e, [p ++ " contained invalid JSON dict.\n"])
    else
      match env.files p with
      | none => .error (.ioError, [])
      | some content =>
        match Json.parse content with
        | none => .error (.valueError, [p ++ " contained invalid JSON dict.\n"])
        | some j =>
          match dictUpdate [] j with
          | .ok d => .ok d
          | .error e => .error (e, [p ++ " contained invalid JSON dict.\n"])

/-- Lines 106-147: the command dispatch — compute the HTTP method, URL and
optional body, or abort while preparing the `put` body. -/
def prepare (cmd : Command) (env : Env) :
    Except (PyErr × List String) (String × String × Option String) :=
  match cmd with
  | .get a => .ok ("GET", BUILDBUCKET_API_URL ++ "/" ++ a.id, none)
  | .put a =>
    match processChanges a env with
    | .error e => .error e
    | .ok changes =>
      match processProps a env with
      | .error e => .error e
      | .ok props =>
        let params : Json := .obj
          [(.str "builder_name", .str a.builder_name),
           (.str "changes", .arr changes),
           (.str "properties", .obj props)]
        let body : Json := .obj
          [(.str "bucket", .str a.bucket),
           (.str "parameters_json", .str (Json.dumps params))]
        .ok ("PUT", BUILDBUCKET_API_URL, some (Json.dumps body))
  | .retry a => .ok ("PUT", BUILDBUCKET_API_URL ++ "/" ++ a.id ++ "/retry", none)

/-- The `--response-json` argument of whichever subcommand was chosen. -/
def Command.responseJsonArg : Command → Option String
  | .get a => a.response_json
  | .put a => a.response_json
  | .retry a => a.response_json

/-- Lines 177-181: the `Build: <url>` line, produced only when
`content_json['build']['url']` raises nothing. -/
def buildLineOf (cj : Json) : Option String :=
  match subscr cj "build" with
  | .ok b =>
    match subscr b "url" with
    | .ok u => some ("Build: " ++ pyStr u)
    | .error _ => none
  | .error _ => none

/-- Lines 172-181: the response-decoration block.  Parse the body; when it
parses, write the capture file if `args.response_json` is truthy, then try
to extract `build.url`.  Every `ValueError`/`TypeError`/`KeyError` is
swallowed by the bare `pass`, but a file write performed before a later
failure persists.  Returns (file writes, stdout lines). -/
def decorate (rj : Option String) (content : String) :
    List (String × String) × List String :=
  match Json.parse content with
  | none => ([], [])
  | some cj =>
    let ws := match rj with
      | some p => if p = "" then [] else [(p, content)]
      | none => []
    let lines := match buildLineOf cj with
      | some line => [line]
      | none => []
    (ws, lines)

/-- `print('Request body:', body)` renders an absent body as `None`. -/
def optStr : Option String → String
  | none => "None"
  | some s => s

/-- The textual rendering `print` gives the httplib2 response object.  That
repr lives outside this repository; it is modelled as a deterministic
function of the response, which is all the claims depend on. -/
def respRepr (r : HttpResponse) : String :=
  "\x7bstatus: " ++ toString r.status ++ "\x7d"

/-- Everything observable about one invocation. -/
structure RunResult where
  stdout : List String
  stderr : List String
  request : Option HttpRequest
  writes : List (String × String)
  result : Except PyErr Nat

/-- Lines 48-187: `main`, including the `sys.exit(main(sys.argv))` wrapper.
`result` is `.ok code` for a normal exit (`sys.exit(response.status != 200)`
maps `False`/`True` to exit codes 0/1) and `.error e` for an uncaught
exception (a non-zero exit with a traceback). -/
def main (args : Args) (env : Env) : RunResult :=
  match prepare args.command env with
  | .error (e, errs) =>
    { stdout := [], stderr := errs, request := none, writes := [], result := .error e }
  | .ok (method, url, body) =>
    let req : HttpRequest :=
      { url := url, method := method, body := body,
        headers := [("Content-Type", "application/json")] }
    let resp := env.http req
    let preTrace := if args.verbose then
        ["Request URL: " ++ url, "Request method: " ++ method,
         "Request body: " ++ optStr body]
      else []
    let postTrace := if args.verbose then
        ["Response: " ++ respRepr resp, "Content: " ++ resp.content]
      else []
    let dec := decorate args.command.responseJsonArg resp.content
    { stdout := preTrace ++ postTrace ++ dec.2,
      stderr := [],
      request := some req,
      writes := dec.1,
      result := .ok (if resp.status = 200 then 0 else 1) }

/-- The `put` request body object for bucket `B`, with the serialized
parameters string `S` (the double-encoded inner document). -/
def putBodyObj (B S : String) : Json :=
  .obj [(.str "bucket", .str B), (.str "parameters_json", .str S)]

/-- The parameters object for builder `N` with no changes and no
properties. -/
def putParamsObj (N : String) : Json :=
  .obj [(.str "builder_name", .str N), (.str "changes", .arr []),
        (.str "properties", .obj [])]

/-- An environment with an empty file system, empty stdin, and a constant
HTTP response; used to instantiate witnesses. -/
def constEnv (status : Nat) (content : String) : Env :=
  ⟨fun _ => none, "", fun _ => ⟨status, content⟩⟩

/-- An environment with a single file and a constant HTTP response; used to
instantiate witnesses and counterexamples. -/
def fileEnv (path fileContent : String) (status : Nat) (content : String) : Env :=
  ⟨fun q => if q = path then some fileContent else none, "",
   fun _ => ⟨status, content⟩⟩

/-! ## Sanity checks of the embedded `json` functions -/

example : Json.dumps (.obj [(.str "a", .arr [.num 1, .num (-2)]), (.str "b", .obj [])])
    = "\x7b\"a\": [1, -2], \"b\": \x7b\x7d\x7d" := by rfl

example :
    Json.parse "\x7b\"a\": [1, -2], \"b\": \x7b\x7d, \"a\": true\x7d"
      = some (.obj [(.str "a", .bool true), (.str "b", .obj [])]) := by rfl

example : Json.parse " [ \"x\\n\", null, false ] "
    = some (.arr [.str "x\n", .null, .bool false]) := by rfl

example : Json.parse "\x7b\"not\": \"a list\"\x7d"
    = some (.obj [(.str "not", .str "a list")]) := by rfl

example : Json.parse "not json" = none := by rfl
example : Json.parse "4.5" = none := by rfl
example : Json.parse "" = none := by rfl
example : Json.parse "[1,]" = none := by rfl
example : Json.parse "\"\\u0041\"" = some (.str "A") := by rfl

/-! ## Round-trip of the serializer through the parser -/

/-- `String.mk` undoes `String.data`. -/
theorem mk_data (s : String) : String.mk s.data = s := rfl

/-- The hex digits emitted for `\u00XX` escapes decode to their value. -/
theorem hexVal_hexDigit (n : Nat) (h : n < 16) : hexVal (hexDigit n) = some n := by
  interval_cases n <;> rfl

/-- The JSON string escaper round-trips through the string-body parser:
decoding the escaped characters followed by a closing quote recovers the
original characters and the remaining input. -/
theorem parseStringBody_escChars (l rest : List Char) :
    parseStringBody (escChars l ++ '"' :: rest) = some (l, rest) := by
  induction l with
  | nil => rw [escChars, parseStringBody.eq_def]; simp
  | cons c l ih =>
    rw [escChars, escChar]
    by_cases h1 : c = '"'
    · subst h1; rw [parseStringBody.eq_def]; simp [escDecode, ih]
    · rw [if_neg h1]
      by_cases h2 : c = '\\'
      · subst h2; rw [parseStringBody.eq_def]; simp [escDecode, ih]
      · rw [if_neg h2]
        by_cases h3 : c = '\n'
        · subst h3; rw [parseStringBody.eq_def]; simp [escDecode, ih]
        · rw [if_neg h3]
          by_cases h4 : c = '\t'
          · subst h4; rw [parseStringBody.eq_def]; simp [escDecode, ih]
          · rw [if_neg h4]
            by_cases h5 : c = '\r'
            · subst h5; rw [parseStringBody.eq_def]; simp [escDecode, ih]
            · rw [if_neg h5]
              by_cases h6 : c = '\x08'
              · subst h6; rw [parseStringBody.eq_def]; simp [escDecode, ih]
              · rw [if_neg h6]
                by_cases h7 : c = '\x0c'
                · subst h7; rw [parseStringBody.eq_def]; simp [escDecode, ih]
                · rw [if_neg h7]
                  by_cases h8 : c.toNat < 32
                  · rw [if_pos h8]
                    have hd1 : hexVal (hexDigit (c.toNat / 16)) = some (c.toNat / 16) :=
                      hexVal_hexDigit _ (by omega)
                    have hd2 : hexVal (hexDigit (c.toNat % 16)) = some (c.toNat % 16) :=
                      hexVal_hexDigit _ (by omega)
                    have hn : 16 * (c.toNat / 16) + c.toNat % 16 = c.toNat := by omega
                    have hv : (c.toNat).isValidChar := Or.inl (by omega)
                    have h0 : hexVal '0' = some 0 := rfl
                    rw [parseStringBody.eq_def]
                    simp [h0, hd1, hd2, hn, hv, ih]
                  · rw [if_neg h8]
                    rw [parseStringBody.eq_def]
                    simp [h1, h2, h8, ih]

/-- Parsing a serialized string literal yields the original string. -/
theorem parseValue_str (f : Nat) (l rest : List Char) :
    parseValue (f + 1) ('"' :: (escChars l ++ '"' :: rest)) =
      some (.str (String.mk l), rest) := by
  rw [parseValue.eq_def]
  simp [parseStringBody_escChars]

/-- Parsing a serialized empty array. -/
theorem parseValue_arrNil (f : Nat) (rest : List Char) :
    parseValue (f + 1) ('[' :: ']' :: rest) = some (.arr [], rest) := by
  rw [parseValue.eq_def]
  simp [skipWs, isWsChar]

/-- Parsing a serialized empty object. -/
theorem parseValue_objNil (f : Nat) (rest : List Char) :
    parseValue (f + 1) ('\x7b' :: '\x7d' :: rest) = some (.obj [], rest) := by
  rw [parseValue.eq_def]
  simp [skipWs, isWsChar]

/-- One member step of the object-member parser, on input of the shape the
serializer emits. -/
theorem parseMembers_step (f : Nat) (k body r3 : List Char) (v : Json)
    (hv : parseValue f (skipWs body) = some (v, r3)) :
    parseMembers (f + 1) ('"' :: (escChars k ++ '"' :: ':' :: ' ' :: body)) =
      (match skipWs r3 with
       | ',' :: r4 =>
         (match parseMembers f (skipWs r4) with
          | some (ms, r5) => some ((Json.str (String.mk k), v) :: ms, r5)
          | none => none)
       | '\x7d' :: r4 => some ([(Json.str (String.mk k), v)], r4)
       | _ => none) := by
  rw [parseMembers.eq_def]
  simp [parseStringBody_escChars, skipWs, isWsChar, hv]

/-- The serialized form of the `put` body object, flattened. -/
theorem dumpsL_putBody (B S : String) :
    dumpsL (putBodyObj B S) =
      '\x7b' :: '"' :: (escChars "bucket".data ++ '"' :: ':' :: ' ' ::
        '"' :: (escChars B.data ++ '"' :: ',' :: ' ' ::
        '"' :: (escChars "parameters_json".data ++ '"' :: ':' :: ' ' ::
        '"' :: (escChars S.data ++ '"' :: '\x7d' :: [])))) := by
  simp [putBodyObj, dumpsL, dumpsKV, dumpsObjRest, keyChars]

/-- Parsing the serialized `put` body object recovers it. -/
theorem parseValue_putBodyChars (f : Nat) (B S : String) :
    parseValue (f + 4)
      ('\x7b' :: '"' :: (escChars "bucket".data ++ '"' :: ':' :: ' ' ::
        '"' :: (escChars B.data ++ '"' :: ',' :: ' ' ::
        '"' :: (escChars "parameters_json".data ++ '"' :: ':' :: ' ' ::
        '"' :: (escChars S.data ++ '"' :: '\x7d' :: []))))) =
      some (putBodyObj B S, []) := by
  have hv1 : parseValue (f + 2)
      (skipWs ('"' :: (escChars B.data ++ '"' :: ',' :: ' ' ::
        '"' :: (escChars "parameters_json".data ++ '"' :: ':' :: ' ' ::
        '"' :: (escChars S.data ++ '"' :: '\x7d' :: []))))) =
      some (Json.str B, ',' :: ' ' ::
        '"' :: (escChars "parameters_json".data ++ '"' :: ':' :: ' ' ::
        '"' :: (escChars S.data ++ '"' :: '\x7d' :: []))) :=
    parseValue_str (f + 1) B.data _
  have hm1 := parseMembers_step (f + 2) "bucket".data _ _ _ hv1
  have hv2 : parseValue (f + 1)
      (skipWs ('"' :: (escChars S.data ++ '"' :: '\x7d' :: []))) =
      some (Json.str S, '\x7d' :: []) :=
    parseValue_str f S.data _
  have hm2 := parseMembers_step (f + 1) "parameters_json".data _ _ _ hv2
  rw [parseValue.eq_def]
  simp [skipWs, isWsChar, hm1, hm2, mk_data, dedupeMembers, dictInsert, keyEq,
    putBodyObj]

/-- The serialized form of the parameters object, flattened. -/
theorem dumpsL_putParams (N : String) :
    dumpsL (putParamsObj N) =
      '\x7b' :: '"' :: (escChars "builder_name".data ++ '"' :: ':' :: ' ' ::
        '"' :: (escChars N.data ++ '"' :: ',' :: ' ' ::
        '"' :: (escChars "changes".data ++ '"' :: ':' :: ' ' ::
        '[' :: ']' :: ',' :: ' ' ::
        '"' :: (escChars "properties".data ++ '"' :: ':' :: ' ' ::
        '\x7b' :: '\x7d' :: '\x7d' :: [])))) := by
  simp [putParamsObj, dumpsL, dumpsKV, dumpsObjRest, keyChars]

/-- Parsing the serialized parameters object recovers it. -/
theorem parseValue_putParamsChars (f : Nat) (N : String) :
    parseValue (f + 5)
      ('\x7b' :: '"' :: (escChars "builder_name".data ++ '"' :: ':' :: ' ' ::
        '"' :: (escChars N.data ++ '"' :: ',' :: ' ' ::
        '"' :: (escChars "changes".data ++ '"' :: ':' :: ' ' ::
        '[' :: ']' :: ',' :: ' ' ::
        '"' :: (escChars "properties".data ++ '"' :: ':' :: ' ' ::
        '\x7b' :: '\x7d' :: '\x7d' :: []))))) =
      some (putParamsObj N, []) := by
  have hv1 : parseValue (f + 3)
      (skipWs ('"' :: (escChars N.data ++ '"' :: ',' :: ' ' ::
        '"' :: (escChars "changes".data ++ '"' :: ':' :: ' ' ::
        '[' :: ']' :: ',' :: ' ' ::
        '"' :: (escChars "properties".data ++ '"' :: ':' :: ' ' ::
        '\x7b' :: '\x7d' :: '\x7d' :: []))))) =
      some (Json.str N, ',' :: ' ' ::
        '"' :: (escChars "changes".data ++ '"' :: ':' :: ' ' ::
        '[' :: ']' :: ',' :: ' ' ::
        '"' :: (escChars "properties".data ++ '"' :: ':' :: ' ' ::
        '\x7b' :: '\x7d' :: '\x7d' :: []))) :=
    parseValue_str (f + 2) N.data _
  have hm1 := parseMembers_step (f + 3) "builder_name".data _ _ _ hv1
  have hv2 : parseValue (f + 2)
      (skipWs ('[' :: ']' :: ',' :: ' ' ::
        '"' :: (escChars "properties".data ++ '"' :: ':' :: ' ' ::
        '\x7b' :: '\x7d' :: '\x7d' :: []))) =
      some (Json.arr [], ',' :: ' ' ::
        '"' :: (escChars "properties".data ++ '"' :: ':' :: ' ' ::
        '\x7b' :: '\x7d' :: '\x7d' :: [])) :=
    parseValue_arrNil (f + 1) _
  have hm2 := parseMembers_step (f + 2) "changes".data _ _ _ hv2
  have hv3 : parseValue (f + 1)
      (skipWs ('\x7b' :: '\x7d' :: '\x7d' :: [])) =
      some (Json.obj [], '\x7d' :: []) :=
    parseValue_objNil f _
  have hm3 := parseMembers_step (f + 1) "properties".data _ _ _ hv3
  rw [parseValue.eq_def]
  simp [skipWs, isWsChar, hm1, hm2, hm3, mk_data, dedupeMembers, dictInsert,
    keyEq, putParamsObj]

/-- `json.loads` inverts `json.dumps` on the `put` body object. -/
theorem parse_dumps_putBody (B S : String) :
    Json.parse (Json.dumps (putBodyObj B S)) = some (putBodyObj B S) := by
  show Json.parseChars (dumpsL (putBodyObj B S)) = some (putBodyObj B S)
  rw [Json.parseChars]
  have hlen : 1 ≤ (dumpsL (putBodyObj B S)).length := by
    rw [dumpsL_putBody]
    simp only [List.length_cons]
    omega
  obtain ⟨m, hm⟩ : ∃ m, 2 * (dumpsL (putBodyObj B S)).length + 2 = m + 4 :=
    ⟨2 * (dumpsL (putBodyObj B S)).length - 2, by omega⟩
  have kk := parseValue_putBodyChars m B S
  rw [← dumpsL_putBody] at kk
  have hsw : skipWs (dumpsL (putBodyObj B S)) = dumpsL (putBodyObj B S) := by
    rw [dumpsL_putBody, skipWs.eq_def]
    simp [isWsChar]
  rw [hm, hsw, kk]
  simp [skipWs]

/-- `json.loads` inverts `json.dumps` on the parameters object. -/
theorem parse_dumps_putParams (N : String) :
    Json.parse (Json.dumps (putParamsObj N)) = some (putParamsObj N) := by
  show Json.parseChars (dumpsL (putParamsObj N)) = some (putParamsObj N)
  rw [Json.parseChars]
  have hlen : 2 ≤ (dumpsL (putParamsObj N)).length := by
    rw [dumpsL_putParams]
    simp only [List.length_cons]
    omega
  obtain ⟨m, hm⟩ : ∃ m, 2 * (dumpsL (putParamsObj N)).length + 2 = m + 5 :=
    ⟨2 * (dumpsL (putParamsObj N)).length - 3, by omega⟩
  have kk := parseValue_putParamsChars m N
  rw [← dumpsL_putParams] at kk
  have hsw : skipWs (dumpsL (putParamsObj N)) = dumpsL (putParamsObj N) := by
    rw [dumpsL_putParams, skipWs.eq_def]
    simp [isWsChar]
  rw [hm, hsw, kk]
  simp [skipWs]

/-! ## Helper lemmas about the observable run -/

/-- Two string concatenations differ when their leading literal parts
differ at some position within both. -/
theorem append_ne_append_left (p q : String) (i : Nat)
    (h1 : i < p.data.length) (h2 : i < q.data.length)
    (hne : p.data[i]? ≠ q.data[i]?) :
    ∀ x y : String, p ++ x ≠ q ++ y := by
  intro x y h
  have h3 := congrArg (fun s : String => s.data[i]?) h
  simp only [String.data_append] at h3
  rw [List.getElem?_append_left h1, List.getElem?_append_left h2] at h3
  exact hne h3

/-- The shape of a run whose preparation phase succeeded. -/
theorem main_ok (args : Args) (env : Env) (m u : String) (b : Option String)
    (hp : prepare args.command env = .ok (m, u, b)) :
    main args env =
      { stdout :=
          (if args.verbose then
            ["Request URL: " ++ u, "Request method: " ++ m,
             "Request body: " ++ optStr b] else []) ++
          (if args.verbose then
            ["Response: " ++
               respRepr (env.http ⟨u, m, b, [("Content-Type", "application/json")]⟩),
             "Content: " ++
               (env.http ⟨u, m, b, [("Content-Type", "application/json")]⟩).content]
           else []) ++
          (decorate args.command.responseJsonArg
            (env.http ⟨u, m, b, [("Content-Type", "application/json")]⟩).content).2,
        stderr := [],
        request := some ⟨u, m, b, [("Content-Type", "application/json")]⟩,
        writes :=
          (decorate args.command.responseJsonArg
            (env.http ⟨u, m, b, [("Content-Type", "application/json")]⟩).content).1,
        result := .ok
          (if (env.http ⟨u, m, b, [("Content-Type", "application/json")]⟩).status = 200
           then 0 else 1) } := by
  simp [main, hp]

/-- The shape of a run whose preparation phase aborted. -/
theorem main_err (args : Args) (env : Env) (e : PyErr) (errs : List String)
    (hp : prepare args.command env = .error (e, errs)) :
    main args env = ⟨[], errs, none, [], .error e⟩ := by
  simp [main, hp]

/-- Two string concatenations differ when their trailing literal parts
differ at some position from the end within both. -/
theorem append_ne_append_right (p q : String) (i : Nat)
    (h1 : i < p.data.length) (h2 : i < q.data.length)
    (hne : p.data.reverse[i]? ≠ q.data.reverse[i]?) :
    ∀ x y : String, x ++ p ≠ y ++ q := by
  intro x y h
  have h3 := congrArg (fun s : String => s.data.reverse[i]?) h
  simp only [String.data_append, List.reverse_append] at h3
  rw [List.getElem?_append_left (by simpa using h1),
    List.getElem?_append_left (by simpa using h2)] at h3
  exact hne h3

/-- None of the verbose trace lines is a `Build:` line. -/
theorem trace_not_build (u m : String) (b : Option String) (resp : HttpResponse) :
    ∀ l ∈ (["Request URL: " ++ u, "Request method: " ++ m,
            "Request body: " ++ optStr b] ++
           ["Response: " ++ respRepr resp, "Content: " ++ resp.content]),
      ∀ y : String, l ≠ "Build: " ++ y := by
  intro l hl y
  have hcontent : "Content: " ++ resp.content ≠ "Build: " ++ y :=
    append_ne_append_left "Content: " "Build: " 0 (by decide) (by decide)
      (by decide) _ _
  have hresp : "Response: " ++ respRepr resp ≠ "Build: " ++ y :=
    append_ne_append_left "Response: " "Build: " 0 (by decide) (by decide)
      (by decide) _ _
  have hurl : "Request URL: " ++ u ≠ "Build: " ++ y :=
    append_ne_append_left "Request URL: " "Build: " 0 (by decide) (by decide)
      (by decide) _ _
  have hmet : "Request method: " ++ m ≠ "Build: " ++ y :=
    append_ne_append_left "Request method: " "Build: " 0 (by decide) (by decide)
      (by decide) _ _
  have hbod : "Request body: " ++ optStr b ≠ "Build: " ++ y :=
    append_ne_append_left "Request body: " "Build: " 0 (by decide) (by decide)
      (by decide) _ _
  simp only [List.mem_append, List.mem_cons, List.not_mem_nil, or_false] at hl
  rcases hl with (h | h | h) | (h | h) <;> subst h <;> assumption

/-- The two fatal-input messages differ whatever paths they name. -/
theorem dict_msg_ne_list_msg :
    ∀ x y : String,
      x ++ " contained invalid JSON dict.\n" ≠ y ++ " contained invalid JSON list.\n" :=
  append_ne_append_right _ _ 3 (by decide) (by decide) (by decide)

/-- Whatever makes the properties phase abort, its error-stream output is
either empty (`IOError` from `open`) or a single dict message. -/
theorem processProps_stderr (a : PutArgs) (env : Env) (e2 : PyErr)
    (errs2 : List String) (hpp : processProps a env = .error (e2, errs2)) :
    errs2 = [] ∨
    ∃ s, errs2 = [s] ∧ ∀ y : String, s ≠ y ++ " contained invalid JSON list.\n" := by
  rcases hq : a.properties with _ | q
  · simp [processProps, hq] at hpp
  · by_cases hq1 : q = ""
    · simp [processProps, hq, hq1] at hpp
    · by_cases hq2 : q = "-"
      · rcases hstdin : Json.parse env.stdin with _ | js
        · simp [processProps, hq, hq1, hq2, hstdin] at hpp
          refine Or.inr ⟨"-" ++ " contained invalid JSON dict.\n",
            ?_, fun y => dict_msg_ne_list_msg "-" y⟩
          first
          | exact hpp.2
          | exact hpp.2.symm
        · rcases hupd : dictUpdate [] js with e3 | d3
          · simp [processProps, hq, hq1, hq2, hstdin, hupd] at hpp
            refine Or.inr ⟨"-" ++ " contained invalid JSON dict.\n",
              ?_, fun y => dict_msg_ne_list_msg "-" y⟩
            first
            | exact hpp.2
            | exact hpp.2.symm
          · simp [processProps, hq, hq1, hq2, hstdin, hupd] at hpp
      · rcases hfq : env.files q with _ | qc
        · simp [processProps, hq, hq1, hq2, hfq] at hpp
          exact Or.inl hpp.2
        · rcases hparq : Json.parse qc with _ | jq
          · simp [processProps, hq, hq1, hq2, hfq, hparq] at hpp
            refine Or.inr ⟨q ++ " contained invalid JSON dict.\n",
              ?_, fun y => dict_msg_ne_list_msg q y⟩
            first
            | exact hpp.2
            | exact hpp.2.symm
          · rcases hupd : dictUpdate [] jq with e3 | d3
            · simp [processProps, hq, hq1, hq2, hfq, hparq, hupd] at hpp
              refine Or.inr ⟨q ++ " contained invalid JSON dict.\n",
                ?_, fun y => dict_msg_ne_list_msg q y⟩
              first
              | exact hpp.2
              | exact hpp.2.symm
            · simp [processProps, hq, hq1, hq2, hfq, hparq, hupd] at hpp

/-! ## The claims -/

/-- Claim C3: for `put` with bucket `B`, builder `N`, no changes file and
no properties source, the request is a `PUT` to the base API URL whose
JSON body parses to `{"bucket": B, "parameters_json": s}` where the string
value `s` itself parses to
`{"builder_name": N, "changes": [], "properties": {}}`. -/
theorem c3_put_request_body (v : Bool) (B N : String) (rj : Option String)
    (env : Env) :
    ∃ body s,
      (main ⟨v, .put ⟨B, N, none, none, rj⟩⟩ env).request =
        some ⟨BUILDBUCKET_API_URL, "PUT", some body,
              [("Content-Type", "application/json")]⟩ ∧
      Json.parse body =
        some (.obj [(.str "bucket", .str B), (.str "parameters_json", .str s)]) ∧
      Json.parse s =
        some (.obj [(.str "builder_name", .str N), (.str "changes", .arr []),
                    (.str "properties", .obj [])]) :=
  ⟨Json.dumps (putBodyObj B (Json.dumps (putParamsObj N))),
   Json.dumps (putParamsObj N), rfl, parse_dumps_putBody B _,
   parse_dumps_putParams N⟩

/-- Claim C4: whenever the HTTP exchange is reached, the exit code is 0
exactly when the response status is 200, and is exactly 1 for any other
status, regardless of the response body. -/
theorem c4_exit_code (args : Args) (env : Env) (req : HttpRequest)
    (h : (main args env).request = some req) :
    ((main args env).result = .ok 0 ↔ (env.http req).status = 200) ∧
    ((env.http req).status ≠ 200 → (main args env).result = .ok 1) := by
  rcases hp : prepare args.command env with ⟨e, errs⟩ | ⟨m, u, b⟩
  · rw [main_err args env e errs hp] at h
    simp at h
  · rw [main_ok args env m u b hp] at h
    simp only [Option.some.injEq] at h
    subst h
    rw [main_ok args env m u b hp]
    constructor
    · by_cases hs :
        (env.http ⟨u, m, b, [("Content-Type", "application/json")]⟩).status = 200 <;>
        simp [hs]
    · intro hs
      simp [hs]

/-- Witness for C4 at a concrete `get` invocation answered with 201. -/
theorem c4_exit_code_witness :
    ((main ⟨false, .get ⟨"7", none⟩⟩ (constEnv 201 "x")).result = .ok 0 ↔
      ((constEnv 201 "x").http
        ⟨BUILDBUCKET_API_URL ++ "/" ++ "7", "GET", none,
         [("Content-Type", "application/json")]⟩).status = 200) ∧
    (((constEnv 201 "x").http
        ⟨BUILDBUCKET_API_URL ++ "/" ++ "7", "GET", none,
         [("Content-Type", "application/json")]⟩).status ≠ 200 →
      (main ⟨false, .get ⟨"7", none⟩⟩ (constEnv 201 "x")).result = .ok 1) :=
  c4_exit_code ⟨false, .get ⟨"7", none⟩⟩ (constEnv 201 "x") _ rfl

/-- Claim C5: if the response body is not valid JSON, no `Build:` line is
printed, no capture file is written, nothing is reported on the error
stream, and the exit code still follows the status rule. -/
theorem c5_invalid_json_response (args : Args) (env : Env) (req : HttpRequest)
    (hreq : (main args env).request = some req)
    (hbad : Json.parse (env.http req).content = none) :
    (main args env).writes = [] ∧
    (∀ l ∈ (main args env).stdout, ∀ y : String, l ≠ "Build: " ++ y) ∧
    (main args env).stderr = [] ∧
    (main args env).result = .ok (if (env.http req).status = 200 then 0 else 1) := by
  rcases hp : prepare args.command env with ⟨e, errs⟩ | ⟨m, u, b⟩
  · rw [main_err args env e errs hp] at hreq
    simp at hreq
  · rw [main_ok args env m u b hp] at hreq
    simp only [Option.some.injEq] at hreq
    subst hreq
    rw [main_ok args env m u b hp]
    refine ⟨by simp [decorate, hbad], ?_, rfl, rfl⟩
    intro l hl y
    have h2 : l ∈ (["Request URL: " ++ u, "Request method: " ++ m,
        "Request body: " ++ optStr b] ++
        ["Response: " ++ respRepr
           (env.http ⟨u, m, b, [("Content-Type", "application/json")]⟩),
         "Content: " ++
           (env.http ⟨u, m, b, [("Content-Type", "application/json")]⟩).content]) := by
      cases hv : args.verbose <;> simp_all [decorate, hbad]
    exact trace_not_build u m b _ l h2 y

/-- Witness for C5 at a concrete `get` invocation answered with a non-JSON
body and status 500. -/
theorem c5_invalid_json_response_witness :
    (main ⟨false, .get ⟨"1", none⟩⟩ (constEnv 500 "not json")).writes = [] ∧
    (∀ l ∈ (main ⟨false, .get ⟨"1", none⟩⟩ (constEnv 500 "not json")).stdout,
      ∀ y : String, l ≠ "Build: " ++ y) ∧
    (main ⟨false, .get ⟨"1", none⟩⟩ (constEnv 500 "not json")).stderr = [] ∧
    (main ⟨false, .get ⟨"1", none⟩⟩ (constEnv 500 "not json")).result =
      .ok (if ((constEnv 500 "not json").http
        ⟨BUILDBUCKET_API_URL ++ "/" ++ "1", "GET", none,
         [("Content-Type", "application/json")]⟩).status = 200 then 0 else 1) :=
  c5_invalid_json_response ⟨false, .get ⟨"1", none⟩⟩ (constEnv 500 "not json") _
    rfl rfl

/-- Claim C6: when `--response-json` names a (nonempty) path and the
response body is valid JSON, the named file is written with exactly the raw
response body. -/
theorem c6_response_capture (args : Args) (env : Env) (req : HttpRequest)
    (p : String) (cj : Json)
    (hreq : (main args env).request = some req)
    (hrj : args.command.responseJsonArg = some p) (hp : p ≠ "")
    (hok : Json.parse (env.http req).content = some cj) :
    (main args env).writes = [(p, (env.http req).content)] := by
  rcases hpr : prepare args.command env with ⟨e, errs⟩ | ⟨m, u, b⟩
  · rw [main_err args env e errs hpr] at hreq
    simp at hreq
  · rw [main_ok args env m u b hpr] at hreq
    simp only [Option.some.injEq] at hreq
    subst hreq
    rw [main_ok args env m u b hpr]
    simp [decorate, hok, hrj, hp]

/-- Witness for C6: a concrete `get` invocation with `--response-json
out.json` and a JSON response body. -/
theorem c6_response_capture_witness :
    (main ⟨false, .get ⟨"1", some "out.json"⟩⟩
        (constEnv 200 "\x7b\"ok\": true\x7d")).writes =
      [("out.json", "\x7b\"ok\": true\x7d")] :=
  c6_response_capture ⟨false, .get ⟨"1", some "out.json"⟩⟩
    (constEnv 200 "\x7b\"ok\": true\x7d") _ "out.json"
    (.obj [(.str "ok", .bool true)]) rfl rfl (by decide) rfl

/-- Claim C7: for `get` with identifier `X`, the single request issued is a
`GET` of `<base>/X` with no body. -/
theorem c7_get_request (v : Bool) (g : GetArgs) (env : Env) :
    (main ⟨v, .get g⟩ env).request =
      some ⟨BUILDBUCKET_API_URL ++ "/" ++ g.id, "GET", none,
            [("Content-Type", "application/json")]⟩ := rfl

/-- Claim C8: for `retry` with identifier `X`, the single request issued is
a bodyless `PUT` of `<base>/X/retry`; moreover the
`Content-Type: application/json` header is sent on every request any
invocation issues. -/
theorem c8_retry_request_and_header :
    (∀ (v : Bool) (r : RetryArgs) (env : Env),
      (main ⟨v, .retry r⟩ env).request =
        some ⟨BUILDBUCKET_API_URL ++ "/" ++ r.id ++ "/retry", "PUT", none,
              [("Content-Type", "application/json")]⟩) ∧
    (∀ (args : Args) (env : Env) (req : HttpRequest),
      (main args env).request = some req →
      req.headers = [("Content-Type", "application/json")]) := by
  refine ⟨fun v r env => rfl, fun args env req h => ?_⟩
  rcases hp : prepare args.command env with ⟨e, errs⟩ | ⟨m, u, b⟩
  · rw [main_err args env e errs hp] at h
    simp at h
  · rw [main_ok args env m u b hp] at h
    simp only [Option.some.injEq] at h
    subst h
    rfl

/-- Witness for C8 at a concrete `retry` invocation. -/
theorem c8_retry_request_and_header_witness :
    (main ⟨false, .retry ⟨"1", none⟩⟩ (constEnv 200 "x")).request =
      some ⟨BUILDBUCKET_API_URL ++ "/" ++ "1" ++ "/retry", "PUT", none,
            [("Content-Type", "application/json")]⟩ ∧
    (⟨BUILDBUCKET_API_URL ++ "/" ++ "1" ++ "/retry", "PUT", none,
      [("Content-Type", "application/json")]⟩ : HttpRequest).headers =
      [("Content-Type", "application/json")] :=
  ⟨rfl, c8_retry_request_and_header.2 ⟨false, .retry ⟨"1", none⟩⟩ (constEnv 200 "x")
    _ rfl⟩

/-- Claim C9: when `--response-json` names a (nonempty) path and the
response body parses as JSON but has no `build.url`, the capture file is
still written with the raw body while no `Build:` line is printed. -/
theorem c9_capture_without_build_line (args : Args) (env : Env)
    (req : HttpRequest) (p : String) (cj : Json)
    (hreq : (main args env).request = some req)
    (hrj : args.command.responseJsonArg = some p) (hp : p ≠ "")
    (hok : Json.parse (env.http req).content = some cj)
    (hnb : buildLineOf cj = none) :
    (main args env).writes = [(p, (env.http req).content)] ∧
    (∀ l ∈ (main args env).stdout, ∀ y : String, l ≠ "Build: " ++ y) := by
  rcases hpr : prepare args.command env with ⟨e, errs⟩ | ⟨m, u, b⟩
  · rw [main_err args env e errs hpr] at hreq
    simp at hreq
  · rw [main_ok args env m u b hpr] at hreq
    simp only [Option.some.injEq] at hreq
    subst hreq
    rw [main_ok args env m u b hpr]
    refine ⟨by simp [decorate, hok, hrj, hp], ?_⟩
    intro l hl y
    have h2 : l ∈ (["Request URL: " ++ u, "Request method: " ++ m,
        "Request body: " ++ optStr b] ++
        ["Response: " ++ respRepr
           (env.http ⟨u, m, b, [("Content-Type", "application/json")]⟩),
         "Content: " ++
           (env.http ⟨u, m, b, [("Content-Type", "application/json")]⟩).content]) := by
      cases hv : args.verbose <;> simp_all [decorate, hok, hnb]
    exact trace_not_build u m b _ l h2 y

/-- Witness for C9: a JSON-list response body with `--response-json`. -/
theorem c9_capture_without_build_line_witness :
    (main ⟨false, .get ⟨"1", some "o.json"⟩⟩ (constEnv 404 "[1]")).writes =
      [("o.json", "[1]")] ∧
    (∀ l ∈ (main ⟨false, .get ⟨"1", some "o.json"⟩⟩ (constEnv 404 "[1]")).stdout,
      ∀ y : String, l ≠ "Build: " ++ y) :=
  c9_capture_without_build_line ⟨false, .get ⟨"1", some "o.json"⟩⟩
    (constEnv 404 "[1]") _ "o.json" (.arr [.num 1]) rfl rfl (by decide) rfl rfl

/-- Claim C10: `--verbose` only prepends trace lines to standard output —
the request, the file writes, the error stream, the exit status, and the
presence and content of the `Build:` line are unchanged. -/
theorem c10_verbose_invariance (cmd : Command) (env : Env) :
    (main ⟨true, cmd⟩ env).request = (main ⟨false, cmd⟩ env).request ∧
    (main ⟨true, cmd⟩ env).writes = (main ⟨false, cmd⟩ env).writes ∧
    (main ⟨true, cmd⟩ env).stderr = (main ⟨false, cmd⟩ env).stderr ∧
    (main ⟨true, cmd⟩ env).result = (main ⟨false, cmd⟩ env).result ∧
    ∃ tr, (main ⟨true, cmd⟩ env).stdout = tr ++ (main ⟨false, cmd⟩ env).stdout ∧
      ∀ l ∈ tr, ∀ y : String, l ≠ "Build: " ++ y := by
  rcases hp : prepare cmd env with ⟨e, errs⟩ | ⟨m, u, b⟩
  · rw [main_err ⟨true, cmd⟩ env e errs hp, main_err ⟨false, cmd⟩ env e errs hp]
    exact ⟨rfl, rfl, rfl, rfl, [], rfl, by simp⟩
  · rw [main_ok ⟨true, cmd⟩ env m u b hp, main_ok ⟨false, cmd⟩ env m u b hp]
    refine ⟨rfl, rfl, rfl, rfl,
      ["Request URL: " ++ u, "Request method: " ++ m,
       "Request body: " ++ optStr b] ++
      ["Response: " ++ respRepr
         (env.http ⟨u, m, b, [("Content-Type", "application/json")]⟩),
       "Content: " ++
         (env.http ⟨u, m, b, [("Content-Type", "application/json")]⟩).content],
      by simp, trace_not_build u m b _⟩

/-- Witness for C10 at a concrete invocation. -/
theorem c10_verbose_invariance_witness :
    (main ⟨true, .get ⟨"1", none⟩⟩ (constEnv 200 "x")).request =
      (main ⟨false, .get ⟨"1", none⟩⟩ (constEnv 200 "x")).request ∧
    (main ⟨true, .get ⟨"1", none⟩⟩ (constEnv 200 "x")).writes =
      (main ⟨false, .get ⟨"1", none⟩⟩ (constEnv 200 "x")).writes ∧
    (main ⟨true, .get ⟨"1", none⟩⟩ (constEnv 200 "x")).stderr =
      (main ⟨false, .get ⟨"1", none⟩⟩ (constEnv 200 "x")).stderr ∧
    (main ⟨true, .get ⟨"1", none⟩⟩ (constEnv 200 "x")).result =
      (main ⟨false, .get ⟨"1", none⟩⟩ (constEnv 200 "x")).result ∧
    ∃ tr, (main ⟨true, .get ⟨"1", none⟩⟩ (constEnv 200 "x")).stdout =
        tr ++ (main ⟨false, .get ⟨"1", none⟩⟩ (constEnv 200 "x")).stdout ∧
      ∀ l ∈ tr, ∀ y : String, l ≠ "Build: " ++ y :=
  c10_verbose_invariance (.get ⟨"1", none⟩) (constEnv 200 "x")

/-- Claim C1, counterexample: with a changes file containing exactly
`{"not":"a list"}`, the tool does not abort — nothing is printed to the
error stream, the run exits normally, and the HTTP request is issued (the
dict's keys become the changes). -/
theorem c1_object_changes_counterexample :
    (main ⟨false, .put ⟨"B", "N", some "c.json", none, none⟩⟩
        (fileEnv "c.json" "\x7b\"not\": \"a list\"\x7d" 200 "\x7b\x7d")).stderr = [] ∧
    ((main ⟨false, .put ⟨"B", "N", some "c.json", none, none⟩⟩
        (fileEnv "c.json" "\x7b\"not\": \"a list\"\x7d" 200 "\x7b\x7d")).request).isSome
      = true ∧
    (main ⟨false, .put ⟨"B", "N", some "c.json", none, none⟩⟩
        (fileEnv "c.json" "\x7b\"not\": \"a list\"\x7d" 200 "\x7b\x7d")).result =
      .ok 0 :=
  ⟨rfl, rfl, rfl⟩

/-- Claim C1 (amended): with a readable changes file, the tool aborts with
the message `<path> contained invalid JSON list.` on the error stream and
issues no request exactly when the file is not valid JSON or its top-level
value is not iterable (a number, a boolean, or `null`); a top-level object
or string is accepted — its keys (resp. characters) become the changes —
and the request is then issued. -/
theorem c1_changes_abort_iff (v : Bool) (a : PutArgs) (env : Env)
    (p content : String)
    (hc : a.changes = some p) (hp : p ≠ "")
    (hf : env.files p = some content) :
    ((main ⟨v, .put a⟩ env).stderr = [p ++ " contained invalid JSON list.\n"] ∧
     (main ⟨v, .put a⟩ env).request = none) ↔
    (Json.parse content = none ∨
     ∃ j e, Json.parse content = some j ∧ listExtend [] j = .error e) := by
  rcases hpar : Json.parse content with _ | j
  · have hprep : prepare (Command.put a) env =
        .error (.valueError, [p ++ " contained invalid JSON list.\n"]) := by
      simp [prepare, processChanges, hc, hp, hf, hpar]
    rw [main_err ⟨v, .put a⟩ env _ _ hprep]
    exact iff_of_true ⟨rfl, rfl⟩ (Or.inl rfl)
  · rcases hext : listExtend [] j with e | cs
    · have hprep : prepare (Command.put a) env =
          .error (e, [p ++ " contained invalid JSON list.\n"]) := by
        simp [prepare, processChanges, hc, hp, hf, hpar, hext]
      rw [main_err ⟨v, .put a⟩ env _ _ hprep]
      exact iff_of_true ⟨rfl, rfl⟩ (Or.inr ⟨j, e, rfl, hext⟩)
    · have hpcok : processChanges a env = .ok cs := by
        simp [processChanges, hc, hp, hf, hpar, hext]
      have hrhsF : ¬((some j : Option Json) = none ∨
          ∃ j2 e2, (some j : Option Json) = some j2 ∧ listExtend [] j2 = .error e2) := by
        rintro (h | ⟨j2, e2, hj2, he2⟩)
        · exact Option.noConfusion h
        · injection hj2 with hjj
          subst hjj
          rw [hext] at he2
          exact Except.noConfusion he2
      refine iff_of_false ?_ hrhsF
      intro hlhs
      rcases hpp : processProps a env with ⟨e2, errs2⟩ | props
      · have hprep : prepare (Command.put a) env = .error (e2, errs2) := by
          simp [prepare, hpcok, hpp]
        rw [main_err ⟨v, .put a⟩ env _ _ hprep] at hlhs
        have herrs : errs2 = [p ++ " contained invalid JSON list.\n"] := hlhs.1
        rcases processProps_stderr a env e2 errs2 hpp with h0 | ⟨s, hs, hsne⟩
        · rw [h0] at herrs
          exact List.noConfusion herrs
        · rw [hs] at herrs
          exact hsne p (List.head_eq_of_cons_eq herrs)
      · rcases hprep : prepare (Command.put a) env with ⟨e3, errs3⟩ | ⟨m, u, b⟩
        · simp [prepare, hpcok, hpp] at hprep
        · rw [main_ok ⟨v, .put a⟩ env _ _ _ hprep] at hlhs
          exact absurd hlhs.2 (by simp)

/-- Witness for C1 (amended): a changes file containing `5` (not iterable)
aborts with the message and no request. -/
theorem c1_changes_abort_iff_witness :
    (main ⟨false, .put ⟨"B", "N", some "c.json", none, none⟩⟩
        (fileEnv "c.json" "5" 200 "x")).stderr =
      ["c.json" ++ " contained invalid JSON list.\n"] ∧
    (main ⟨false, .put ⟨"B", "N", some "c.json", none, none⟩⟩
        (fileEnv "c.json" "5" 200 "x")).request = none :=
  (c1_changes_abort_iff false ⟨"B", "N", some "c.json", none, none⟩
      (fileEnv "c.json" "5" 200 "x") "c.json" "5" rfl (by decide) rfl).mpr
    (Or.inr ⟨.num 5, .typeError, rfl, rfl⟩)

/-- Claim C2, counterexample: a properties file containing `[]` (a JSON
list, not an object) does not abort — nothing is printed to the error
stream, the run exits normally, and the HTTP request is issued. -/
theorem c2_list_props_counterexample :
    (main ⟨false, .put ⟨"B", "N", none, some "p.json", none⟩⟩
        (fileEnv "p.json" "[]" 200 "\x7b\x7d")).stderr = [] ∧
    ((main ⟨false, .put ⟨"B", "N", none, some "p.json", none⟩⟩
        (fileEnv "p.json" "[]" 200 "\x7b\x7d")).request).isSome = true ∧
    (main ⟨false, .put ⟨"B", "N", none, some "p.json", none⟩⟩
        (fileEnv "p.json" "[]" 200 "\x7b\x7d")).result = .ok 0 :=
  ⟨rfl, rfl, rfl⟩

/-- Claim C2 (amended): with no changes file and a readable properties file
(not `-`), the tool aborts with the message `<path> contained invalid JSON
dict.` on the error stream and issues no request exactly when the file is
not valid JSON or `dict.update` raises on its top-level value (a number, a
boolean, `null`, a nonempty string, or a list whose elements are not
two-element sequences); a top-level object — and also e.g. the empty list —
is accepted and the request is then issued. -/
theorem c2_props_abort_iff (v : Bool) (a : PutArgs) (env : Env)
    (p content : String)
    (hch : a.changes = none) (hpr : a.properties = some p)
    (hp1 : p ≠ "") (hp2 : p ≠ "-")
    (hf : env.files p = some content) :
    ((main ⟨v, .put a⟩ env).stderr = [p ++ " contained invalid JSON dict.\n"] ∧
     (main ⟨v, .put a⟩ env).request = none) ↔
    (Json.parse content = none ∨
     ∃ j e, Json.parse content = some j ∧ dictUpdate [] j = .error e) := by
  have hpc : processChanges a env = .ok [] := by
    simp [processChanges, hch]
  rcases hpar : Json.parse content with _ | j
  · have hprep : prepare (Command.put a) env =
        .error (.valueError, [p ++ " contained invalid JSON dict.\n"]) := by
      simp [prepare, hpc, processProps, hpr, hp1, hp2, hf, hpar]
    rw [main_err ⟨v, .put a⟩ env _ _ hprep]
    exact iff_of_true ⟨rfl, rfl⟩ (Or.inl rfl)
  · rcases hupd : dictUpdate [] j with e | d
    · have hprep : prepare (Command.put a) env =
          .error (e, [p ++ " contained invalid JSON dict.\n"]) := by
        simp [prepare, hpc, processProps, hpr, hp1, hp2, hf, hpar, hupd]
      rw [main_err ⟨v, .put a⟩ env _ _ hprep]
      exact iff_of_true ⟨rfl, rfl⟩ (Or.inr ⟨j, e, rfl, hupd⟩)
    · have hppok : ∀ d0, dictUpdate [] j = .ok d0 →
          processProps a env = .ok d0 := by
        intro d0 h0
        simp [processProps, hpr, hp1, hp2, hf, hpar, h0]
      have hrhsF : ¬((some j : Option Json) = none ∨
          ∃ j2 e2, (some j : Option Json) = some j2 ∧ dictUpdate [] j2 = .error e2) := by
        rintro (h | ⟨j2, e2, hj2, he2⟩)
        · exact Option.noConfusion h
        · injection hj2 with hjj
          subst hjj
          rw [hupd] at he2
          exact Except.noConfusion he2
      refine iff_of_false ?_ hrhsF
      intro hlhs
      rcases hprep : prepare (Command.put a) env with ⟨e3, errs3⟩ | ⟨m, u, b⟩
      · simp [prepare, hpc, hppok d hupd] at hprep
      · rw [main_ok ⟨v, .put a⟩ env _ _ _ hprep] at hlhs
        exact absurd hlhs.2 (by simp)

/-- Witness for C2 (amended): a properties file containing `7` (not
iterable) aborts with the message and no request. -/
theorem c2_props_abort_iff_witness :
    (main ⟨false, .put ⟨"B", "N", none, some "p.json", none⟩⟩
        (fileEnv "p.json" "7" 200 "x")).stderr =
      ["p.json" ++ " contained invalid JSON dict.\n"] ∧
    (main ⟨false, .put ⟨"B", "N", none, some "p.json", none⟩⟩
        (fileEnv "p.json" "7" 200 "x")).request = none :=
  (c2_props_abort_iff false ⟨"B", "N", none, some "p.json", none⟩
      (fileEnv "p.json" "7" 200 "x") "p.json" "7" rfl rfl (by decide) (by decide)
      rfl).mpr
    (Or.inr ⟨.num 7, .typeError, rfl, rfl⟩)

end Buildbucket


